import Mathlib

/-!
Verification of the stack machine in `sm.cpp` (Raphael2017/stack-machine).

The machine is shallowly embedded: the global machine state (instruction
pointer `ip`, the word array `memory`, the operand `stack`, and the two byte
streams) becomes a structure, and the body of the `for (;;)` dispatch loop in
`main` becomes a one-step function `step`.  Machine words are `int32_t`; all
values arising in the executions studied here are far from the 32-bit
boundaries, so words are modelled as `Int`.

The C++ source has two operations whose behavior is undefined by C++ rather
than by the program text, and the embedding makes them explicit outcomes
instead of picking an arbitrary result:
  * `pop()` calls `stack.back()` / `stack.pop_back()` without checking for
    emptiness; popping an empty stack is the outcome `ubPop`.
  * every raw array access `memory[x]` with `x` outside `[0, 1024000)` is out
    of the bounds of `int32_t memory[1024*1000]`; it is the outcome `ubMem`.
All defined behavior is translated directly from the source.
-/

set_option maxRecDepth 100000

/-- `sizeof(memory)/sizeof(int32_t)` for `int32_t memory[1024*1000]`:
the word capacity of the machine. -/
def CAPACITY : Int := 1024000

/-- `check_bounds` (sm.cpp:86-93): returns normally iff
`n>=0 && n<=sizeof(memory)/sizeof(int32_t)` — note the `<=`, which also
accepts `n = CAPACITY`.  `true` means the check passes; `false` means the
process prints a diagnostic and exits with status 1. -/
def check_bounds (n : Int) : Bool :=
  decide (0 ≤ n) && decide (n ≤ CAPACITY)

/-- `next` (sm.cpp:111-116): `ip += sizeof(int32_t)` (i.e. `ip + 4`), then
wrap to 0 when `ip > sizeof(memory)/sizeof(int32_t)`.  The comparison is
against a `size_t`, so a negative `ip` would convert to a huge unsigned value
and also wrap to 0; the first disjunct models that conversion. -/
def next (ip : Int) : Int :=
  if ip + 4 < 0 ∨ CAPACITY < ip + 4 then 0 else ip + 4

/-- Functional update of the memory array: `memory[a] = v`. -/
def mwrite (m : Int → Int) (a v : Int) : Int → Int :=
  fun i => if i = a then v else m i

/-- The all-zero memory produced by `memset(memory, NOP, sizeof(memory))`
in `reset` (sm.cpp:118-123). -/
def zmem : Int → Int := fun _ => 0

/-- The mutable machine state of sm.cpp (globals at lines 62-66) together
with the two byte streams: `inp` is the bytes still unread on `fin`, and
`out` is the bytes written to `fout` so far (values 0..255, as produced by
`putc`). -/
structure SMState where
  ip : Int
  mem : Int → Int
  stack : List Int
  inp : List Nat
  out : List Nat

/-- Result of one iteration of the dispatch loop. -/
inductive StepRes where
  /-- The loop continues with the new state. -/
  | cont (s : SMState)
  /-- The process exits (`stop`/`exit`) with this status, having written
  these bytes to the output port. -/
  | exitHalt (code : Nat) (out : List Nat)
  /-- Undefined behavior: `pop()` on an empty `std::vector`. -/
  | ubPop (out : List Nat)
  /-- Undefined behavior: the array access `memory[idx]` with `idx` outside
  the array, i.e. outside `[0, CAPACITY)`. -/
  | ubMem (idx : Int) (out : List Nat)

/-- The `switch (op)` body (sm.cpp:184-282), for a fetched word `op`.
Opcode values follow `enum Op` (sm.cpp:23-39): NOP=0, ADD=1, SUB=2, AND=3,
OR=4, XOR=5, NOT=6, IN=7, OUT=8, LOAD=9, STOR=10, JMP=11, JZ=12, PUSH=13,
DUP=14.  The switch has no `default:` label, so any other value matches no
case and the iteration changes nothing at all. -/
def stepOp (s : SMState) (op : Int) : StepRes :=
  if op = 0 then      -- NOP
    .cont { s with ip := next s.ip }
  else if op = 1 then -- ADD: push(pop() + pop())
    match s.stack with
    | a :: b :: rest => .cont { s with stack := (a + b) :: rest, ip := next s.ip }
    | _ => .ubPop s.out
  else if op = 2 then -- SUB: a = pop(); b = pop(); push(a - b)
    match s.stack with
    | a :: b :: rest => .cont { s with stack := (a - b) :: rest, ip := next s.ip }
    | _ => .ubPop s.out
  else if op = 3 then -- AND: push(pop() & pop())
    match s.stack with
    | a :: b :: rest => .cont { s with stack := (Int.land a b) :: rest, ip := next s.ip }
    | _ => .ubPop s.out
  else if op = 4 then -- OR: push(pop() | pop())
    match s.stack with
    | a :: b :: rest => .cont { s with stack := (Int.lor a b) :: rest, ip := next s.ip }
    | _ => .ubPop s.out
  else if op = 5 then -- XOR: push(pop() ^ pop())
    match s.stack with
    | a :: b :: rest => .cont { s with stack := (Int.xor a b) :: rest, ip := next s.ip }
    | _ => .ubPop s.out
  else if op = 6 then -- NOT: push(!pop())
    match s.stack with
    | a :: rest =>
        .cont { s with stack := (if a = 0 then 1 else 0) :: rest, ip := next s.ip }
    | _ => .ubPop s.out
  else if op = 7 then -- IN: push(getc(fin)); getc yields 0..255, or -1 at EOF
    match s.inp with
    | [] => .cont { s with stack := (-1) :: s.stack, ip := next s.ip }
    | b :: t => .cont { s with stack := (b : Int) :: s.stack, inp := t, ip := next s.ip }
  else if op = 8 then -- OUT: putc(pop(), fout) writes the low byte
    match s.stack with
    | a :: rest =>
        .cont { s with stack := rest, out := s.out ++ [(a % 256).toNat], ip := next s.ip }
    | _ => .ubPop s.out
  else if op = 9 then -- LOAD: a = pop(); check_bounds(a); push(memory[a])
    match s.stack with
    | a :: rest =>
        if check_bounds a then
          if 0 ≤ a ∧ a < CAPACITY then
            .cont { s with stack := s.mem a :: rest, ip := next s.ip }
          else .ubMem a s.out
        else .exitHalt 1 s.out
    | _ => .ubPop s.out
  else if op = 10 then -- STOR: a = pop(); b = pop(); check_bounds(a); memory[a] = b
    match s.stack with
    | a :: b :: rest =>
        if check_bounds a then
          if 0 ≤ a ∧ a < CAPACITY then
            .cont { s with mem := mwrite s.mem a b, stack := rest, ip := next s.ip }
          else .ubMem a s.out
        else .exitHalt 1 s.out
    | _ => .ubPop s.out
  else if op = 11 then -- JMP: a = pop(); check_bounds(a); halt if a == ip, else ip = a
    match s.stack with
    | a :: rest =>
        if check_bounds a then
          if a = s.ip then .exitHalt 0 s.out
          else .cont { s with ip := a, stack := rest }
        else .exitHalt 1 s.out
    | _ => .ubPop s.out
  else if op = 12 then -- JZ: a = pop(); advance if a != 0, else check_bounds(a); ip = a
    match s.stack with
    | a :: rest =>
        if a ≠ 0 then .cont { s with stack := rest, ip := next s.ip }
        else if check_bounds a then .cont { s with stack := rest, ip := a }
        else .exitHalt 1 s.out
    | _ => .ubPop s.out
  else if op = 13 then -- PUSH: next(); a = memory[ip]; push(a); next()
    if 0 ≤ next s.ip ∧ next s.ip < CAPACITY then
      .cont { s with stack := s.mem (next s.ip) :: s.stack, ip := next (next s.ip) }
    else .ubMem (next s.ip) s.out
  else if op = 14 then -- DUP: a = pop(); push(a); push(a)
    match s.stack with
    | a :: rest => .cont { s with stack := a :: a :: rest, ip := next s.ip }
    | _ => .ubPop s.out
  else
    .cont s -- no matching case label: the loop body falls through unchanged

/-- One iteration of the `for (;;)` loop (sm.cpp:169-283): fetch
`memory[ip]` (itself a raw array access) and dispatch. -/
def step (s : SMState) : StepRes :=
  if 0 ≤ s.ip ∧ s.ip < CAPACITY then stepOp s (s.mem s.ip)
  else .ubMem s.ip s.out

/-- Outcome of running the loop for at most `fuel` iterations. -/
inductive ExecRes where
  | outOfFuel
  | exitHalt (code : Nat) (out : List Nat)
  | ubPop (out : List Nat)
  | ubMem (idx : Int) (out : List Nat)
deriving DecidableEq

/-- Run the dispatch loop for at most `fuel` iterations. -/
def exec : Nat → SMState → ExecRes
  | 0, _ => .outOfFuel
  | fuel + 1, s =>
    match step s with
    | .cont s2 => exec fuel s2
    | .exitHalt c o => .exitHalt c o
    | .ubPop o => .ubPop o
    | .ubMem i o => .ubMem i o

/-! ## The loader and the hardcoded demo program -/

/-- The state the loader (`reset`/`load`) works on: the same globals, before
execution starts. -/
structure LoaderState where
  ip : Int
  mem : Int → Int

/-- `reset` (sm.cpp:118-123): zero the memory and the instruction pointer. -/
def resetL : LoaderState := { ip := 0, mem := zmem }

/-- `load` (sm.cpp:125-135): `memory[ip] = v; next();`. -/
def load (l : LoaderState) (v : Int) : LoaderState :=
  { ip := next l.ip, mem := mwrite l.mem l.ip v }

/-- The hardcoded demo program of `main` (sm.cpp:150-165), written with the
numeric opcode values (PUSH=13, OUT=8, DUP=14, JMP=11) and the ASCII codes of
the message characters.  The halt sequence is
`load(PUSH); load(ip+sizeof(int32_t)); load(JMP);`. -/
def demoLoader : LoaderState :=
  let s := resetL
  let s := load s 13; let s := load s 72;  let s := load s 8   -- PUSH 'H'; OUT
  let s := load s 13; let s := load s 101; let s := load s 8   -- PUSH 'e'; OUT
  let s := load s 13; let s := load s 108; let s := load s 14
  let s := load s 8;  let s := load s 8                        -- PUSH 'l'; DUP; OUT; OUT
  let s := load s 13; let s := load s 111; let s := load s 8   -- PUSH 'o'; OUT
  let s := load s 13; let s := load s 32;  let s := load s 8   -- PUSH ' '; OUT
  let s := load s 13; let s := load s 119; let s := load s 8   -- PUSH 'w'; OUT
  let s := load s 13; let s := load s 111; let s := load s 8   -- PUSH 'o'; OUT
  let s := load s 13; let s := load s 114; let s := load s 8   -- PUSH 'r'; OUT
  let s := load s 13; let s := load s 108; let s := load s 8   -- PUSH 'l'; OUT
  let s := load s 13; let s := load s 100; let s := load s 8   -- PUSH 'd'; OUT
  let s := load s 13; let s := load s 33;  let s := load s 8   -- PUSH '!'; OUT
  let s := load s 13; let s := load s 10;  let s := load s 8   -- PUSH newline; OUT
  let s := load s 13; let s := load s (s.ip + 4); let s := load s 11 -- halt self-jump
  s

/-- The machine state right after `init()` (sm.cpp:137-140,167): the loaded
demo image with `ip = 0`, an empty stack, and (for this run) no input. -/
def demoStart : SMState :=
  { ip := 0, mem := demoLoader.mem, stack := [], inp := [], out := [] }

/-- The thirteen bytes of the message, in ASCII. -/
def helloBytes : List Nat :=
  [72, 101, 108, 108, 111, 32, 119, 111, 114, 108, 100, 33, 10]

/-- Claim C1: run with no arguments, the hardcoded demo program writes
exactly the thirteen bytes of the message to the output port, in order, and
the process exits with status 0 (via the self-jump halt). -/
theorem c1_demo_output :
    exec 30 demoStart = ExecRes.exitHalt 0 helloBytes := by
  rfl

/-! ## Opcode names: `to_s` and the `help` reference table -/

/-- `enum Op` (sm.cpp:23-39). -/
inductive Op where
  | NOP
  | ADD
  | SUB
  | AND
  | OR
  | XOR
  | NOT
  | IN
  | OUT
  | LOAD
  | STOR
  | JMP
  | JZ
  | PUSH
  | DUP
deriving DecidableEq

/-- `to_s` (sm.cpp:41-59): the `switch` has cases for `NOP` through `JZ`
only.  `default:` shares its `return "NOP"` with `case NOP:`, and neither
`PUSH` nor `DUP` has a case, so both fall to the default. -/
def to_s : Op → String
  | .ADD => "ADD"
  | .SUB => "SUB"
  | .AND => "AND"
  | .OR => "OR"
  | .XOR => "XOR"
  | .NOT => "NOT"
  | .IN => "IN"
  | .OUT => "OUT"
  | .LOAD => "LOAD"
  | .STOR => "STOR"
  | .JMP => "JMP"
  | .JZ => "JZ"
  | _ => "NOP"

/-- The `static_cast<Op>` used by the `help` loop (sm.cpp:97-101) on the
values 0 through 14 it actually visits. -/
def opOfCode : Nat → Op
  | 0 => .NOP
  | 1 => .ADD
  | 2 => .SUB
  | 3 => .AND
  | 4 => .OR
  | 5 => .XOR
  | 6 => .NOT
  | 7 => .IN
  | 8 => .OUT
  | 9 => .LOAD
  | 10 => .STOR
  | 11 => .JMP
  | 12 => .JZ
  | 13 => .PUSH
  | _ => .DUP

/-- The opcode reference table printed by `help` (sm.cpp:95-109): one
`0x%x = %s` line per opcode value 0 through DUP = 14, each formatted with
`to_s`. -/
def helpTable : List (Nat × String) :=
  (List.range 15).map (fun n => (n, to_s (opOfCode n)))

/-- Claim C10 (counterexample): the claim says every defined opcode other
than DUP is mapped by `to_s` to its own name, but PUSH also has no case in
the switch and is labeled `"NOP"`. -/
theorem c10_push_labeled_nop :
    to_s Op.PUSH = "NOP" ∧ ("NOP" : String) ≠ "PUSH" := by
  exact ⟨rfl, by decide⟩

/-- Claim C10 (amended): `to_s` returns `"NOP"` for both DUP and PUSH
(neither has a case; both fall to the default), so the help-mode opcode
reference table and the per-instruction trace label both DUP and PUSH as
`"NOP"`, while every other defined opcode is mapped to its own name. -/
theorem c10_to_s_names :
    to_s Op.DUP = "NOP" ∧ to_s Op.PUSH = "NOP" ∧
    to_s Op.NOP = "NOP" ∧ to_s Op.ADD = "ADD" ∧ to_s Op.SUB = "SUB" ∧
    to_s Op.AND = "AND" ∧ to_s Op.OR = "OR" ∧ to_s Op.XOR = "XOR" ∧
    to_s Op.NOT = "NOT" ∧ to_s Op.IN = "IN" ∧ to_s Op.OUT = "OUT" ∧
    to_s Op.LOAD = "LOAD" ∧ to_s Op.STOR = "STOR" ∧ to_s Op.JMP = "JMP" ∧
    to_s Op.JZ = "JZ" ∧
    helpTable = [(0, "NOP"), (1, "ADD"), (2, "SUB"), (3, "AND"), (4, "OR"),
      (5, "XOR"), (6, "NOT"), (7, "IN"), (8, "OUT"), (9, "LOAD"),
      (10, "STOR"), (11, "JMP"), (12, "JZ"), (13, "NOP"), (14, "NOP")] := by
  exact ⟨rfl, rfl, rfl, rfl, rfl, rfl, rfl, rfl, rfl, rfl, rfl, rfl, rfl,
    rfl, rfl, rfl⟩

/-! ## Bounds checking (C3) -/

/-- `LOAD` about to pop the address `CAPACITY`: `memory[0] = LOAD`, stack
holding exactly `[1024000]`. -/
def oobLoadS : SMState :=
  { ip := 0, mem := mwrite zmem 0 9, stack := [CAPACITY], inp := [], out := [] }

/-- Claim C3 (the code evaluated at the failing input): `check_bounds`
accepts `n = CAPACITY` (it tests `n <= sizeof(memory)/sizeof(int32_t)`), so
`LOAD` with popped address 1024000 does not exit with OutOfBounds — it goes
on to read `memory[1024000]`, one word past the end of the array (undefined
behavior).  Addresses one larger, or negative, are rejected with exit
status 1. -/
theorem c3_load_at_capacity :
    check_bounds CAPACITY = true ∧
    step oobLoadS = StepRes.ubMem CAPACITY [] ∧
    step { oobLoadS with stack := [CAPACITY + 1] } = StepRes.exitHalt 1 [] ∧
    step { oobLoadS with stack := [-1] } = StepRes.exitHalt 1 [] := by
  exact ⟨rfl, rfl, rfl, rfl⟩

/-! ## Stack underflow (C4) -/

/-- `ADD` with an empty stack: `memory[0] = ADD`, nothing pushed. -/
def underflowS : SMState :=
  { ip := 0, mem := mwrite zmem 0 1, stack := [], inp := [], out := [] }

/-- Claim C4 (the code evaluated at the failing input): `pop()` calls
`stack.back()` with no emptiness check, so `ADD` with zero or one stack
elements reaches a pop of an empty `std::vector` (undefined behavior); no
StackUnderflow diagnostic or error exit exists anywhere in the source. -/
theorem c4_add_underflow :
    step underflowS = StepRes.ubPop [] ∧
    step { underflowS with stack := [5] } = StepRes.ubPop [] ∧
    step underflowS ≠ StepRes.exitHalt 1 [] := by
  refine ⟨rfl, rfl, fun h => ?_⟩
  rw [show step underflowS = StepRes.ubPop [] from rfl] at h
  exact StepRes.noConfusion h

/-! ## Invalid opcodes (C5) -/

/-- The word 15 — one past DUP = 14 — at address 0, about to be fetched. -/
def invalidOpS : SMState :=
  { ip := 0, mem := mwrite zmem 0 15, stack := [], inp := [], out := [] }

/-- Claim C5 (the code evaluated at the failing input): the dispatch switch
has no `default:` label, so a fetched word that matches no opcode case
leaves the iteration with the state completely unchanged — `ip` does not
even advance, so the value is not treated as NOP — and the loop re-fetches
the same word forever: no InvalidOpcode diagnostic, no exit status 1, no
termination. -/
theorem c5_invalid_opcode_loops :
    step invalidOpS = StepRes.cont invalidOpS ∧
    ∀ fuel : Nat, exec fuel invalidOpS = ExecRes.outOfFuel := by
  refine ⟨rfl, fun fuel => ?_⟩
  induction fuel with
  | zero => rfl
  | succ k ih => exact ih

/-! ## The instruction-pointer range (C6) -/

/-- The two-instruction program `PUSH 1024000; JMP` (PUSH at word 0, its
immediate at word 4, JMP at word 8 — the stride the loader itself uses). -/
def ipOverrunS : SMState :=
  { ip := 0, mem := mwrite (mwrite (mwrite zmem 0 13) 4 CAPACITY) 8 11,
    stack := [], inp := [], out := [] }

/-- Claim C6 (the code evaluated at the failing input): `JMP` to address
1024000 passes `check_bounds` (which accepts `CAPACITY`), so `ip` becomes
1024000 and the following fetch reads `memory[1024000]`, one word past the
end of the array — the instruction pointer is not `< CAPACITY` at that
fetch.  The wraparound in `next` does not prevent this either: it tests
`ip > CAPACITY`, so an increment that lands exactly on `CAPACITY` (from
1023996) is not wrapped to 0. -/
theorem c6_ip_reaches_capacity :
    exec 5 ipOverrunS = ExecRes.ubMem CAPACITY [] ∧
    next 1023996 = CAPACITY ∧
    ¬(CAPACITY < CAPACITY) := by
  exact ⟨rfl, rfl, by decide⟩

/-! ## Per-opcode unfoldings of the dispatch switch -/

/-- The JMP case of the switch (sm.cpp:246-256), as an equation. -/
theorem stepOp_jmp (s : SMState) :
    stepOp s 11 =
      (match s.stack with
      | a :: rest =>
          if check_bounds a then
            if a = s.ip then StepRes.exitHalt 0 s.out
            else StepRes.cont { s with ip := a, stack := rest }
          else StepRes.exitHalt 1 s.out
      | _ => StepRes.ubPop s.out) := rfl

/-- The JZ case of the switch (sm.cpp:258-267), as an equation. -/
theorem stepOp_jz (s : SMState) :
    stepOp s 12 =
      (match s.stack with
      | a :: rest =>
          if a ≠ 0 then StepRes.cont { s with stack := rest, ip := next s.ip }
          else if check_bounds a then StepRes.cont { s with stack := rest, ip := a }
          else StepRes.exitHalt 1 s.out
      | _ => StepRes.ubPop s.out) := rfl

/-- The PUSH case of the switch (sm.cpp:269-274), as an equation. -/
theorem stepOp_push (s : SMState) :
    stepOp s 13 =
      (if 0 ≤ next s.ip ∧ next s.ip < CAPACITY then
        StepRes.cont { s with stack := s.mem (next s.ip) :: s.stack,
                              ip := next (next s.ip) }
      else StepRes.ubMem (next s.ip) s.out) := rfl

/-- The IN case of the switch (sm.cpp:221-224), as an equation. -/
theorem stepOp_in (s : SMState) :
    stepOp s 7 =
      (match s.inp with
      | [] => StepRes.cont { s with stack := (-1) :: s.stack, ip := next s.ip }
      | b :: t => StepRes.cont { s with stack := (b : Int) :: s.stack,
                                        inp := t, ip := next s.ip }) := rfl

/-! ## JMP and the self-jump halt (C2) -/

set_option maxHeartbeats 1000000 in
/-- Only the JMP self-jump branch of the switch produces an exit with
status 0. -/
theorem stepOp_exit_zero (s : SMState) (op : Int) (o : List Nat)
    (h : stepOp s op = StepRes.exitHalt 0 o) :
    op = 11 ∧ s.stack.head? = some s.ip ∧ o = s.out := by
  unfold stepOp at h
  by_cases e0 : op = 0
  · rw [if_pos e0] at h
    exact StepRes.noConfusion h
  rw [if_neg e0] at h
  by_cases e1 : op = 1
  · rw [if_pos e1] at h
    rcases hst : s.stack with _ | ⟨a, _ | ⟨b, r⟩⟩ <;> rw [hst] at h <;>
      exact StepRes.noConfusion h
  rw [if_neg e1] at h
  by_cases e2 : op = 2
  · rw [if_pos e2] at h
    rcases hst : s.stack with _ | ⟨a, _ | ⟨b, r⟩⟩ <;> rw [hst] at h <;>
      exact StepRes.noConfusion h
  rw [if_neg e2] at h
  by_cases e3 : op = 3
  · rw [if_pos e3] at h
    rcases hst : s.stack with _ | ⟨a, _ | ⟨b, r⟩⟩ <;> rw [hst] at h <;>
      exact StepRes.noConfusion h
  rw [if_neg e3] at h
  by_cases e4 : op = 4
  · rw [if_pos e4] at h
    rcases hst : s.stack with _ | ⟨a, _ | ⟨b, r⟩⟩ <;> rw [hst] at h <;>
      exact StepRes.noConfusion h
  rw [if_neg e4] at h
  by_cases e5 : op = 5
  · rw [if_pos e5] at h
    rcases hst : s.stack with _ | ⟨a, _ | ⟨b, r⟩⟩ <;> rw [hst] at h <;>
      exact StepRes.noConfusion h
  rw [if_neg e5] at h
  by_cases e6 : op = 6
  · rw [if_pos e6] at h
    rcases hst : s.stack with _ | ⟨a, r⟩ <;> rw [hst] at h <;>
      exact StepRes.noConfusion h
  rw [if_neg e6] at h
  by_cases e7 : op = 7
  · rw [if_pos e7] at h
    rcases hin : s.inp with _ | ⟨b, t⟩ <;> rw [hin] at h <;>
      exact StepRes.noConfusion h
  rw [if_neg e7] at h
  by_cases e8 : op = 8
  · rw [if_pos e8] at h
    rcases hst : s.stack with _ | ⟨a, r⟩ <;> rw [hst] at h <;>
      exact StepRes.noConfusion h
  rw [if_neg e8] at h
  by_cases e9 : op = 9
  · rw [if_pos e9] at h
    rcases hst : s.stack with _ | ⟨a, r⟩ <;> rw [hst] at h
    · exact StepRes.noConfusion h
    · change (if check_bounds a then
                if 0 ≤ a ∧ a < CAPACITY then
                  StepRes.cont { s with stack := s.mem a :: r, ip := next s.ip }
                else StepRes.ubMem a s.out
              else StepRes.exitHalt 1 s.out) = StepRes.exitHalt 0 o at h
      split_ifs at h
      injection h with h1 h2
      exact absurd h1 (by decide)
  rw [if_neg e9] at h
  by_cases e10 : op = 10
  · rw [if_pos e10] at h
    rcases hst : s.stack with _ | ⟨a, _ | ⟨b, r⟩⟩ <;> rw [hst] at h
    · exact StepRes.noConfusion h
    · exact StepRes.noConfusion h
    · change (if check_bounds a then
                if 0 ≤ a ∧ a < CAPACITY then
                  StepRes.cont { s with mem := mwrite s.mem a b, stack := r,
                                        ip := next s.ip }
                else StepRes.ubMem a s.out
              else StepRes.exitHalt 1 s.out) = StepRes.exitHalt 0 o at h
      split_ifs at h
      injection h with h1 h2
      exact absurd h1 (by decide)
  rw [if_neg e10] at h
  by_cases e11 : op = 11
  · rw [if_pos e11] at h
    rcases hst : s.stack with _ | ⟨a, rest⟩ <;> rw [hst] at h
    · exact StepRes.noConfusion h
    · change (if check_bounds a then
                if a = s.ip then StepRes.exitHalt 0 s.out
                else StepRes.cont { s with ip := a, stack := rest }
              else StepRes.exitHalt 1 s.out) = StepRes.exitHalt 0 o at h
      split_ifs at h with hcb hip
      · injection h with h1 h2
        refine ⟨e11, ?_, h2.symm⟩
        rw [hip]
        rfl
      · injection h with h1 h2
        exact absurd h1 (by decide)
  rw [if_neg e11] at h
  by_cases e12 : op = 12
  · rw [if_pos e12] at h
    rcases hst : s.stack with _ | ⟨a, rest⟩ <;> rw [hst] at h
    · exact StepRes.noConfusion h
    · change (if a ≠ 0 then StepRes.cont { s with stack := rest, ip := next s.ip }
              else if check_bounds a then
                StepRes.cont { s with stack := rest, ip := a }
              else StepRes.exitHalt 1 s.out) = StepRes.exitHalt 0 o at h
      split_ifs at h
      injection h with h1 h2
      exact absurd h1 (by decide)
  rw [if_neg e12] at h
  by_cases e13 : op = 13
  · rw [if_pos e13] at h
    split_ifs at h
  rw [if_neg e13] at h
  by_cases e14 : op = 14
  · rw [if_pos e14] at h
    rcases hst : s.stack with _ | ⟨a, r⟩ <;> rw [hst] at h <;>
      exact StepRes.noConfusion h
  rw [if_neg e14] at h
  exact StepRes.noConfusion h

/-- Claim C2: executing JMP pops an address `a`; when `a` equals the current
instruction pointer (the position of the JMP opcode word itself) the run
terminates with process exit status 0 instead of jumping; otherwise, for a
target accepted by `check_bounds`, `ip` is set to `a` with no further
auto-advance.  Moreover the self-jump is the only way a step exits with
status 0: any step exiting with 0 fetched opcode 11 with its own address on
top of the stack. -/
theorem c2_jmp_halt :
    (∀ (s : SMState) (a : Int) (rest : List Int),
      0 ≤ s.ip → s.ip < CAPACITY → s.mem s.ip = 11 → s.stack = a :: rest →
      (a = s.ip → step s = StepRes.exitHalt 0 s.out) ∧
      (a ≠ s.ip → check_bounds a = true →
        step s = StepRes.cont { s with ip := a, stack := rest })) ∧
    (∀ (s : SMState) (o : List Nat), step s = StepRes.exitHalt 0 o →
      s.mem s.ip = 11 ∧ s.stack.head? = some s.ip ∧ o = s.out) := by
  constructor
  · intro s a rest h0 h1 hm hst
    have hstep : step s = stepOp s 11 := by
      unfold step
      rw [if_pos ⟨h0, h1⟩, hm]
    have hcb : check_bounds s.ip = true := by
      simp only [check_bounds, Bool.and_eq_true, decide_eq_true_eq]
      exact ⟨h0, le_of_lt h1⟩
    refine ⟨fun ha => ?_, fun ha hacb => ?_⟩
    · simp only [hstep, stepOp_jmp, hst, ha]
      rw [if_pos hcb]
      exact if_pos trivial
    · simp only [hstep, stepOp_jmp, hst]
      rw [if_pos hacb, if_neg ha]
  · intro s o h
    unfold step at h
    by_cases hb : 0 ≤ s.ip ∧ s.ip < CAPACITY
    · rw [if_pos hb] at h
      exact stepOp_exit_zero s (s.mem s.ip) o h
    · rw [if_neg hb] at h
      exact StepRes.noConfusion h

/-- A JMP at address 0 whose popped target is 0: a self-jump. -/
def jmpS : SMState :=
  { ip := 0, mem := mwrite zmem 0 11, stack := [0], inp := [], out := [] }

/-- Witness for C2: the concrete self-jump halts with exit status 0. -/
theorem c2_jmp_halt_witness : step jmpS = StepRes.exitHalt 0 jmpS.out :=
  (c2_jmp_halt.1 jmpS 0 [] (by decide) (by decide) (by decide) rfl).1 rfl

/-! ## JZ (C7) -/

/-- Claim C7: executing JZ pops one value `a`; if `a ≠ 0` it only pops and
advances the instruction pointer (no jump); if `a = 0` it bounds-checks `a`
and sets `ip := a` — the same popped word is both the branch condition and
the jump target, so every taken zero-branch jumps to address `a = 0`. -/
theorem c7_jz_semantics (s : SMState) (a : Int) (rest : List Int)
    (h0 : 0 ≤ s.ip) (h1 : s.ip < CAPACITY) (hm : s.mem s.ip = 12)
    (hst : s.stack = a :: rest) :
    (a ≠ 0 → step s = StepRes.cont { s with stack := rest, ip := next s.ip }) ∧
    (a = 0 → step s = StepRes.cont { s with stack := rest, ip := a }) := by
  have hstep : step s = stepOp s 12 := by
    unfold step
    rw [if_pos ⟨h0, h1⟩, hm]
  refine ⟨fun ha => ?_, fun ha => ?_⟩
  · simp only [hstep, stepOp_jz, hst]
    rw [if_pos ha]
  · simp only [hstep, stepOp_jz, hst]
    rw [if_neg (not_not_intro ha), if_pos (show check_bounds a = true by rw [ha]; rfl)]

/-- A JZ at address 0 with a zero on the stack. -/
def jzS : SMState :=
  { ip := 0, mem := mwrite zmem 0 12, stack := [0], inp := [], out := [] }

/-- Witness for C7: the concrete taken zero-branch jumps to address 0. -/
theorem c7_jz_semantics_witness :
    step jzS = StepRes.cont { jzS with stack := [], ip := 0 } :=
  (c7_jz_semantics jzS 0 [] (by decide) (by decide) (by decide) rfl).2 rfl

/-! ## PUSH and the instruction stride (C8) -/

/-- PUSH at word index 0, the value 77 in the word directly after it
(index 1), and the value 55 at word index 4. -/
def pushStrideS : SMState :=
  { ip := 0, mem := mwrite (mwrite (mwrite zmem 0 13) 1 77) 4 55,
    stack := [], inp := [], out := [] }

/-- Claim C8 (counterexample): executing the PUSH at index 0 pushes 55 —
the word at index 4, because `next` advances the instruction pointer by
`sizeof(int32_t)` = 4 array slots, not by one word — and leaves `ip = 8`.
It does not push the word 77 occupying the index directly after the opcode,
and does not leave `ip = 2`, as the claim predicts. -/
theorem c8_push_stride_counterexample :
    step pushStrideS =
      StepRes.cont { pushStrideS with ip := 8, stack := [55] } ∧
    pushStrideS.mem 1 = 77 ∧
    step pushStrideS ≠
      StepRes.cont { pushStrideS with ip := 2, stack := [77] } := by
  refine ⟨rfl, rfl, fun h => ?_⟩
  rw [show step pushStrideS =
        StepRes.cont { pushStrideS with ip := 8, stack := [55] } from rfl] at h
  injection h with h2
  exact absurd (congrArg SMState.ip h2) (by decide)

/-- Claim C8 (amended): executing PUSH advances the instruction pointer by
4 (the value of `sizeof(int32_t)`, applied to the word index), reads the
word at the new `ip` as the immediate, pushes it, and advances by 4 again;
the immediate operand occupies the word 4 positions after the PUSH opcode
word. -/
theorem c8_push_semantics (s : SMState)
    (h0 : 0 ≤ s.ip) (h8 : s.ip + 8 ≤ CAPACITY) (hm : s.mem s.ip = 13) :
    step s = StepRes.cont
      { s with stack := s.mem (s.ip + 4) :: s.stack, ip := s.ip + 8 } := by
  have hC : CAPACITY = 1024000 := rfl
  rw [hC] at h8
  have h1 : s.ip < CAPACITY := by rw [hC]; omega
  have hn1 : next s.ip = s.ip + 4 := by
    unfold next CAPACITY
    rw [if_neg (by omega)]
  have hn2 : next (s.ip + 4) = s.ip + 8 := by
    unfold next CAPACITY
    rw [if_neg (by omega)]
    omega
  have hstep : step s = stepOp s 13 := by
    unfold step
    rw [if_pos ⟨h0, h1⟩, hm]
  rw [hstep, stepOp_push, hn1, hn2]
  rw [if_pos ⟨by omega, by rw [hC]; omega⟩]

/-- PUSH at index 0 with the immediate 55 at index 4. -/
def pushOkS : SMState :=
  { ip := 0, mem := mwrite (mwrite zmem 0 13) 4 55,
    stack := [], inp := [], out := [] }

/-- Witness for the amended C8 at a concrete input. -/
theorem c8_push_semantics_witness :
    step pushOkS = StepRes.cont
      { pushOkS with stack := pushOkS.mem (pushOkS.ip + 4) :: pushOkS.stack,
                     ip := pushOkS.ip + 8 } :=
  c8_push_semantics pushOkS (by decide) (by decide) (by decide)

/-! ## IN and byte extension (C9) -/

/-- Modelled from the spec (§4.3, IN: "push its value sign-extended into a
Word"): the value of a byte sign-extended from 8 bits into a Word. -/
def signExtend8 (b : Nat) : Int :=
  if b < 128 then (b : Int) else (b : Int) - 256

/-- IN at address 0 with the single input byte 0xFF pending. -/
def inByteS : SMState :=
  { ip := 0, mem := mwrite zmem 0 7, stack := [], inp := [255], out := [] }

/-- Claim C9 (counterexample): executing IN on the input byte 0xFF pushes
the word 255 — `getc` returns the byte as an `unsigned char` converted to
`int`, i.e. zero-extended — whereas sign-extending the byte 0xFF would push
−1. -/
theorem c9_in_not_sign_extended :
    step inByteS =
      StepRes.cont { inByteS with stack := [255], inp := [], ip := 4 } ∧
    signExtend8 255 = -1 ∧
    (255 : Int) ≠ signExtend8 255 := by
  exact ⟨rfl, by decide, by decide⟩

/-- Claim C9 (amended): IN reads one byte from the input port and pushes
its value zero-extended (0..255) into the 32-bit Word; at end-of-stream it
pushes the sentinel value −1. -/
theorem c9_in_semantics (s : SMState)
    (h0 : 0 ≤ s.ip) (h1 : s.ip < CAPACITY) (hm : s.mem s.ip = 7) :
    (s.inp = [] →
      step s = StepRes.cont { s with stack := (-1) :: s.stack, ip := next s.ip }) ∧
    (∀ (b : Nat) (t : List Nat), s.inp = b :: t →
      step s = StepRes.cont { s with stack := (b : Int) :: s.stack,
                                     inp := t, ip := next s.ip }) := by
  have hstep : step s = stepOp s 7 := by
    unfold step
    rw [if_pos ⟨h0, h1⟩, hm]
  refine ⟨fun he => ?_, fun b t he => ?_⟩ <;>
    simp only [hstep, stepOp_in, he]

/-- Witness for the amended C9 at a concrete input. -/
theorem c9_in_semantics_witness :
    step inByteS = StepRes.cont
      { inByteS with stack := ((255 : Nat) : Int) :: inByteS.stack,
                     inp := [], ip := next inByteS.ip } :=
  (c9_in_semantics inByteS (by decide) (by decide) (by decide)).2 255 [] rfl
